import Mathlib

/-!
Verification of the data-marshalling layer of
`src/python/multicamselfcal/execute.py` (multi-camera self-calibration
input/output preparation).

Strings are modelled as `List Char` (`Str`), numeric scalars as exact
rationals wrapped in `PyVal` (which adds the IEEE special values `nan`,
`inf`, `-inf` as symbolic constructors, since the Python code treats them
only through `numpy.nan_to_num`).  Each Python function used by the claims
is translated into a computable Lean definition of the same name; file
writes are modelled by returning the written content.
-/

/-- Strings as lists of characters. -/
abbrev Str := List Char

/-- Python whitespace characters (as used by `str.strip()` / `str.split()`). -/
def isWs (c : Char) : Bool :=
  c = ' ' || c = '\t' || c = '\n' || c = '\r' || c = '\x0b' || c = '\x0c'

/-- Python `str.strip()`: remove leading and trailing whitespace. -/
def pyStrip (s : Str) : Str :=
  ((s.dropWhile isWs).reverse.dropWhile isWs).reverse

/-- Helper for `pySplit`: walk the characters, `acc` holds the current
token reversed. -/
def pySplitAux : Str → Str → List Str
  | [], acc => if acc = [] then [] else [acc.reverse]
  | c :: rest, acc =>
    if isWs c then
      if acc = [] then pySplitAux rest [] else acc.reverse :: pySplitAux rest []
    else pySplitAux rest (c :: acc)

/-- Python `str.split()` with no argument: split on runs of whitespace,
producing no empty tokens. -/
def pySplit (s : Str) : List Str := pySplitAux s []

/-- Python `file.readlines()`: split into lines, each keeping its trailing
newline; a final unterminated line is kept without one. -/
def readlines : Str → List Str
  | [] => []
  | c :: rest =>
    if c = '\n' then ['\n'] :: readlines rest
    else
      match readlines rest with
      | [] => [[c]]
      | l :: ls => (c :: l) :: ls

/-- Python `str.split('\n')`: split at every newline, keeping empty parts
(so it always returns at least one part). -/
def splitNl : Str → List Str
  | [] => [[]]
  | c :: rest =>
    if c = '\n' then [] :: splitNl rest
    else
      match splitNl rest with
      | [] => [[c]]
      | p :: ps => (c :: p) :: ps

/-- `' '.join(tokens)`. -/
def joinSp : List Str → Str
  | [] => []
  | [t] => t
  | t :: ts => t ++ ' ' :: joinSp ts

/-- Concatenate lines, terminating each with a newline (the shape in which
every writer in the source emits its lines). -/
def joinNl : List Str → Str
  | [] => []
  | l :: ls => l ++ '\n' :: joinNl ls

/-- Decimal digits of a natural number, via explicit fuel so that the
definition is structurally recursive (and hence kernel-reducible). -/
def natCharsAux : Nat → Nat → List Char
  | 0, _ => []
  | fuel + 1, n => if n < 10 then [Nat.digitChar n] else natCharsAux fuel (n / 10) ++ [Nat.digitChar (n % 10)]

/-- Python `"%d" % n` for a natural number. -/
def natChars (n : Nat) : List Char := natCharsAux (n + 1) n

/-- Python `"%d" % i` / `str(int)` for an integer. -/
def intChars (i : Int) : List Char :=
  if i < 0 then '-' :: natChars i.natAbs else natChars i.toNat

/-- Does `pat` occur at the start of `s`? -/
def listStartsWith : Str → Str → Bool
  | [], _ => true
  | _ :: _, [] => false
  | p :: ps, c :: cs => p = c && listStartsWith ps cs

/-- Python `s.endswith(pat)`. -/
def listEndsWith (pat s : Str) : Bool := listStartsWith pat.reverse s.reverse

/-- Does `pat` occur contiguously anywhere inside `s`? -/
def containsSeq (pat : Str) : Str → Bool
  | [] => pat.isEmpty
  | c :: rest => listStartsWith pat (c :: rest) || containsSeq pat rest

instance [DecidableEq ε] [DecidableEq α] : DecidableEq (Except ε α) := fun x y =>
  match x, y with
  | .ok a, .ok b =>
    if h : a = b then .isTrue (by rw [h]) else .isFalse (by simp [h])
  | .error a, .error b =>
    if h : a = b then .isTrue (by rw [h]) else .isFalse (by simp [h])
  | .ok _, .error _ => .isFalse (by simp)
  | .error _, .ok _ => .isFalse (by simp)

/-- Error taxonomy of the layer (Python exception kinds, under the names
the specification gives them). -/
inductive PyErr where
  | indexError
  | keyError
  | assertionError
  | valueError
  | formatError
  | unsupportedFormat (url : Str)
deriving DecidableEq

/-- A scalar as it appears in the caller-supplied observation arrays:
an exact rational, or one of the IEEE special values.  `nan_to_num` and
`clip` are exact on these, so no rounding model is needed. -/
inductive PyVal where
  | nan
  | inf
  | neginf
  | num (q : ℚ)
deriving DecidableEq

/-- Largest double, the value `numpy.nan_to_num` substitutes for `inf`. -/
def maxFloat : ℚ := ((17976931348623157 * 10 ^ 292 : ℕ) : ℚ)

/-- `numpy.nan_to_num` on one scalar: `nan ↦ 0`, `±inf ↦ ±maxFloat`,
finite values unchanged. -/
def nanToNum : PyVal → ℚ
  | .nan => 0
  | .inf => maxFloat
  | .neginf => -maxFloat
  | .num q => q

/-- The visibility ("IdMat") row `create_from_cams` derives from the x-coordinate
column of one camera: `np.nan_to_num(found).clip(max=1)`. -/
def foundRow (xs : List PyVal) : List ℚ := (xs.map nanToNum).map (fun q => min q 1)

/-! ## Matrix codec (`load_ascii_matrix` / `save_ascii_matrix`)

Numeric values are represented by their textual form (`repr` output), the
resolution at which the claims compare them ("up to text round-trip
precision"): `save_ascii_matrix` takes rows of such tokens, and
`load_ascii_matrix` validates that each token is accepted by Python's
`float()` (the exact effect the source's `map(float, line.split())` has on
the question of which inputs fail). -/

/-- Is `c` a decimal digit? -/
def isDig (c : Char) : Bool := '0' ≤ c && c ≤ '9'

/-- The body of a `float()` literal once whitespace and a sign have been
removed: `inf`, `infinity`, `nan` (case-insensitive), or digits with an
optional fraction and exponent. -/
def isPyFloatBody (s : Str) : Bool :=
  let low := s.map Char.toLower
  if low = ['i', 'n', 'f'] || low = ['i', 'n', 'f', 'i', 'n', 'i', 't', 'y'] ||
      low = ['n', 'a', 'n'] then
    true
  else
    let d1 := s.takeWhile isDig
    let r1 := s.dropWhile isDig
    let fr :=
      match r1 with
      | '.' :: r => some (r.takeWhile isDig, r.dropWhile isDig)
      | _ => none
    let r2 := match fr with | some p => p.2 | none => r1
    let mantOk :=
      !d1.isEmpty || (match fr with | some p => !p.1.isEmpty | none => false)
    let expOk :=
      match r2 with
      | [] => true
      | 'e' :: r3 | 'E' :: r3 =>
        let r4 := match r3 with | '+' :: x => x | '-' :: x => x | x => x
        !r4.isEmpty && r4 = r4.takeWhile isDig
      | _ => false
    mantOk && expOk

/-- Does Python's `float()` accept this token? (Strips whitespace, then an
optional sign, then matches the literal body.) -/
def isPyFloat (t : Str) : Bool :=
  match pyStrip t with
  | '+' :: r => isPyFloatBody r
  | '-' :: r => isPyFloatBody r
  | r => isPyFloatBody r

/-- `map(float, tokens)`: succeed with the tokens when each one parses,
fail with a FormatError at the first one that does not. -/
def floatCheckRow : List Str → Except PyErr (List Str)
  | [] => .ok []
  | t :: ts =>
    if isPyFloat t then
      match floatCheckRow ts with
      | .ok l => .ok (t :: l)
      | .error e => .error e
    else .error .formatError

/-- The row-by-row body of `load_ascii_matrix`'s comprehension. -/
def loadRows : List (List Str) → Except PyErr (List (List Str))
  | [] => .ok []
  | r :: rs =>
    match floatCheckRow r with
    | .error e => .error e
    | .ok r' =>
      match loadRows rs with
      | .ok l => .ok (r' :: l)
      | .error e => .error e

/-- `load_ascii_matrix`: read the lines, skip those starting with `#`,
strip and whitespace-split the rest, and parse every token as a float. -/
def load_ascii_matrix (content : Str) : Except PyErr (List (List Str)) :=
  loadRows
    (((readlines content).filter (fun l => !(l.head? == some '#'))).map
      (fun l => pySplit (pyStrip l)))

/-- `save_ascii_matrix` on a 2-d array of (already `repr`-ed) values:
each row becomes a space-joined line terminated by a newline. -/
def save_ascii_matrix : List (List Str) → Str
  | [] => []
  | r :: rs => joinSp r ++ '\n' :: save_ascii_matrix rs

/-- `repr` of the `uint8` a boolean is converted to before serialization. -/
def boolTok (b : Bool) : Str := if b then ['1'] else ['0']

/-- The `arr.dtype == np.bool` branch of `save_ascii_matrix`: the array is
cast to `uint8` (0/1) and then serialized as usual. -/
def save_ascii_matrix_bool (rows : List (List Bool)) : Str :=
  save_ascii_matrix (rows.map (fun r => r.map boolTok))

/-- A well-formed value token: what `repr` produces for any numpy numeric
scalar — non-empty, free of whitespace, not starting the comment
character, and accepted by `float()`. -/
def goodTok (t : Str) : Bool :=
  !t.isEmpty && t.all (fun c => !isWs c) && !(t.head? == some '#') && isPyFloat t

/-- `arr.ndim == 2`: all rows have the same length. -/
def isRect (rows : List (List α)) : Bool :=
  rows.all (fun r => r.length == (rows.headD []).length)

/-! ## Directory builder (`MultiCamSelfCal`) -/

/-- A Python dict, as the association list of its insertions. -/
abbrev Dict (α : Type) := List (Str × α)

/-- `d[k]` as an option (`none` models a KeyError site). -/
def pyLookup (d : Dict α) (k : Str) : Option α :=
  (d.find? (fun p => p.1 == k)).map (fun p => p.2)

/-- `cam in d`. -/
def pyContains (d : Dict α) (k : Str) : Bool := (pyLookup d k).isSome

/-- The per-id normalization of `_write_cam_ids`: drop one leading slash. -/
def stripSlash (s : Str) : Str :=
  match s with
  | [] => []
  | c :: r => if c = '/' then r else c :: r

/-- `_write_cam_ids`: one line per camera id, a single leading `/`
stripped; indexing `camid[0]` fails (IndexError) on an empty id. -/
def write_cam_ids : List Str → Except PyErr (List Str)
  | [] => .ok []
  | id :: rest =>
    match id with
    | [] => .error .indexError
    | c :: r =>
      match write_cam_ids rest with
      | .error e => .error e
      | .ok ls => .ok ((if c = '/' then r else c :: r) :: ls)

/-- `read_calibration_names`: split the `camera_order.txt` content on
newlines and drop a single trailing blank entry. -/
def read_calibration_names (content : Str) : List Str :=
  let cs := splitNl content
  if cs.getLast? = some [] then cs.dropLast else cs

/-- The configuration template `_cfg_file`, with the five placeholders
substituted (text identical to the Python triple-quoted string). -/
def cfgRender (basename : Str) (ncam : Nat) (nfill : Int) (undo : Int)
    (sq : Int) (nth : Nat) : Str :=
  "[Files]\nBasename: ".toList ++ basename ++
  "\nImage-Extension: jpg\n\n[Images]\nSubpix: 0.5\n\n[Calibration]\n".toList ++
  "Num-Cameras: ".toList ++ natChars ncam ++
  "\nNum-Projectors: 0\nNonlinear-Parameters: 50    0    1    0    0    0\n".toList ++
  "Nonlinear-Update: 1   0   1   0   0   0\nInitial-Tolerance: 10\n".toList ++
  "Do-Global-Iterations: 0\nGlobal-Iteration-Threshold: 0.5\nGlobal-Iteration-Max: 5\n".toList ++
  "Num-Cameras-Fill: ".toList ++ intChars nfill ++
  "\nDo-Bundle-Adjustment: 1\nUndo-Radial: ".toList ++ intChars undo ++
  "\nMin-Points-Value: 30\nN-Tuples: 3\nSquare-Pixels: ".toList ++ intChars sq ++
  "\nUse-Nth-Frame: ".toList ++ natChars nth ++ "\n".toList

/-- `_write_cfg`: clamp `num_cameras_fill` into `[0, len(cam_ids)]`
(substituting the camera count when negative or too large) and render the
configuration text. -/
def write_cfg (basename : Str) (nth : Nat) (cam_ids : List Str)
    (radial sq fill : Int) : Str :=
  let fill' : Int :=
    if fill < 0 ∨ fill > (cam_ids.length : Int) then (cam_ids.length : Int) else fill
  cfgRender basename cam_ids.length fill' radial sq nth

/-- `np.count_nonzero(np.nan_to_num(np.array(cam_points[cam])))`: how many
entries of the observation array are non-zero after NaN-to-zero coercion. -/
def nvalid (pts : List (List PyVal)) : Nat :=
  (pts.flatten.filter (fun v => !(nanToNum v == 0))).length

/-- `nvalid` of a camera's entry in the points dict (meaningful when the
lookup succeeds). -/
def nvalidOf (ptsD : Dict (List (List PyVal))) (c : Str) : Nat :=
  nvalid ((pyLookup ptsD c).getD [])

/-- The `cams_to_remove` loop of `create_from_cams`: every camera (in
order, duplicates included) whose observation array has no valid entry;
a missing dict entry is a KeyError. -/
def camsToRemove (ptsD : Dict (List (List PyVal))) : List Str → Except PyErr (List Str)
  | [] => .ok []
  | c :: rest =>
    match pyLookup ptsD c with
    | none => .error .keyError
    | some pts =>
      match camsToRemove ptsD rest with
      | .error e => .error e
      | .ok l => .ok (if nvalid pts = 0 then c :: l else l)

/-- How a radial-distortion file is materialized. -/
inductive RadAct where
  | yaml (src : Str)
  | copy (src : Str)
deriving DecidableEq

/-- `"%s/%s%d.rad" % (out_dirname, basename, i+1)`. -/
def radDest (outd bn : Str) (i : Nat) : Str :=
  outd ++ '/' :: (bn ++ natChars (i + 1) ++ (".rad").toList)

/-- Accumulated effects of the per-camera loop of `create_from_cams`. -/
structure CfcState where
  resLines : List (List ℚ)
  idmatLines : List (List ℚ)
  pointsLines : List (List PyVal)
  radFiles : List (Str × Str × RadAct)
  error : Option PyErr
deriving DecidableEq

/-- The empty accumulator. -/
def CfcState.init : CfcState := ⟨[], [], [], [], none⟩

/-- The per-camera loop of `create_from_cams` (index `i` is the position in
the effective camera order): shape-check the observation array, append the
resolution row, the visibility row and the three transposed homogeneous
point rows, and materialize a radial file when a calibration is supplied.
Processing stops at the first raised error, keeping earlier effects. -/
def cfcLoop (outd bn : Str) (ptsD : Dict (List (List PyVal)))
    (resD : Dict (List ℚ)) (calD : Dict Str) (fEx : Str → Bool) :
    List Str → Nat → CfcState → CfcState
  | [], _, st => st
  | cam :: rest, i, st =>
    match pyLookup ptsD cam with
    | none => { st with error := some .keyError }
    | some pts =>
      -- `np.array(...).shape[1]`: empty or ragged input has no second
      -- axis (IndexError); a rectangular one must have exactly 2 columns.
      if pts.isEmpty then { st with error := some .indexError }
      else if pts.any (fun r => r.length != (pts.headD []).length) then
        { st with error := some .indexError }
      else if (pts.headD []).length != 2 then { st with error := some .assertionError }
      else
        let xs := pts.map (fun r => r.getD 0 (.num 0))
        let ys := pts.map (fun r => r.getD 1 (.num 0))
        match pyLookup resD cam with
        | none => { st with error := some .keyError }
        | some res =>
          if res.length != 2 then { st with error := some .valueError }
          else
            let st1 : CfcState :=
              { st with
                resLines := st.resLines ++ [res]
                idmatLines := st.idmatLines ++ [foundRow xs]
                pointsLines :=
                  st.pointsLines ++ [xs, ys, List.replicate pts.length (PyVal.num 1)] }
            match pyLookup calD cam with
            | none => cfcLoop outd bn ptsD resD calD fEx rest (i + 1) st1
            | some url =>
              if !fEx url then { st1 with error := some .assertionError }
              else if listEndsWith ((".yaml").toList) url then
                cfcLoop outd bn ptsD resD calD fEx rest (i + 1)
                  { st1 with radFiles := st1.radFiles ++ [(cam, radDest outd bn i, .yaml url)] }
              else if listEndsWith ((".rad").toList) url then
                cfcLoop outd bn ptsD resD calD fEx rest (i + 1)
                  { st1 with radFiles := st1.radFiles ++ [(cam, radDest outd bn i, .copy url)] }
              else { st1 with error := some (.unsupportedFormat url) }

/-- Everything `create_from_cams` writes (or fails to write). -/
structure CreateOut where
  dropped : List Str
  camOrder : Option (List Str)
  resLines : List (List ℚ)
  idmatLines : List (List ℚ)
  pointsLines : List (List PyVal)
  radFiles : List (Str × Str × RadAct)
  cfg : Option Str
  error : Option PyErr
deriving DecidableEq

/-- Stage of `create_from_cams` after the camera-order write: either the
write raised, or the per-camera loop runs over the effective camera list
`eff` and the configuration is written when the loop raised nothing
(`undo_radial` true only when every remaining camera has a calibration). -/
def cfcFinish (outd bn : Str) (nth : Nat) (resD : Dict (List ℚ))
    (ptsD : Dict (List (List PyVal))) (calD : Dict Str) (fill : Int)
    (fEx : Str → Bool) (eff rm : List Str) :
    Except PyErr (List Str) → CreateOut
  | .error e => ⟨rm, none, [], [], [], [], none, some e⟩
  | .ok lines =>
    let st := cfcLoop outd bn ptsD resD calD fEx eff 0 CfcState.init
    let undo := eff.all (fun c => pyContains calD c)
    { dropped := rm
      camOrder := some lines
      resLines := st.resLines
      idmatLines := st.idmatLines
      pointsLines := st.pointsLines
      radFiles := st.radFiles
      cfg :=
        if st.error = none then
          some (write_cfg bn nth eff (if undo then 1 else 0) 1 fill)
        else none
      error := st.error }

/-- Stage of `create_from_cams` after the removal pass: either a KeyError
was raised while counting points, or the removed cameras are erased from
the id list (`map(cam_ids.remove, cams_to_remove)`) and the camera order
is written. -/
def cfcAfterRemove (outd bn : Str) (nth : Nat) (resD : Dict (List ℚ))
    (ptsD : Dict (List (List PyVal))) (calD : Dict Str) (fill : Int)
    (fEx : Str → Bool) (ids0 : List Str) :
    Except PyErr (List Str) → CreateOut
  | .error e => ⟨[], none, [], [], [], [], none, some e⟩
  | .ok rm =>
    let eff := ids0.diff rm
    cfcFinish outd bn nth resD ptsD calD fill fEx eff rm (write_cam_ids eff)

/-- `create_from_cams`: default the camera list to the points dict's keys,
drop cameras with no valid observations, write the camera order, run the
per-camera loop, and finally write the configuration. -/
def create_from_cams (outd bn : Str) (nth : Nat) (cam_ids : List Str)
    (resD : Dict (List ℚ)) (ptsD : Dict (List (List PyVal))) (calD : Dict Str)
    (fill : Int) (fEx : Str → Bool) : CreateOut :=
  let ids0 := if cam_ids.isEmpty then ptsD.map (fun p => p.1) else cam_ids
  cfcAfterRemove outd bn nth resD ptsD calD fill fEx ids0 (camsToRemove ptsD ids0)

/-- The cameras `create_from_cams` keeps: at least one coordinate entry is
non-zero after NaN coercion. -/
def effIds (ptsD : Dict (List (List PyVal))) (ids : List Str) : List Str :=
  ids.filter (fun c => !(nvalidOf ptsD c == 0))

/-- The cameras `create_from_cams` drops: every coordinate entry is zero or
NaN. -/
def droppedIds (ptsD : Dict (List (List PyVal))) (ids : List Str) : List Str :=
  ids.filter (fun c => nvalidOf ptsD c == 0)

/-- The files `create_calibration_directory` writes. -/
structure CalOut where
  camOrder : List Str
  resLines : List (List ℚ)
  idmatLines : List (List ℚ)
  pointsLines : List (List PyVal)
  cfg : Str
deriving DecidableEq

/-- `create_calibration_directory`: assert `len(Res) == len(cam_ids)`;
assert `len(cam_ids) == len(cam_calibrations)` whenever the calibrations
argument is not `None` (`none` here; the Python default is the empty dict,
which is *not* `None`); then write the camera order, the three matrices
verbatim, and the configuration. -/
def create_calibration_directory (bn : Str) (nth : Nat) (cam_ids : List Str)
    (IdMat : List (List ℚ)) (points : List (List PyVal)) (Res : List (List ℚ))
    (cam_calibrations : Option (Dict Str)) (radial sq fill : Int) :
    Except PyErr CalOut :=
  if Res.length != cam_ids.length then .error .assertionError
  else if (match cam_calibrations with
           | none => false
           | some d => d.length != cam_ids.length) then .error .assertionError
  else
    match write_cam_ids cam_ids with
    | .error e => .error e
    | .ok lines =>
      .ok ⟨lines, Res, IdMat, points, write_cfg bn nth cam_ids radial sq fill⟩

/-- The hard-coded file-name template of `get_camera_names_map`
(`"basename%d.rad" % i`): note the literal word `basename`. -/
def tmplRad (i : Nat) : Str := ("basename").toList ++ natChars i ++ (".rad").toList

/-- The dict-building loop of `get_camera_names_map`, from index `k`. -/
def buildNamesFrom (k : Nat) : List Str → List (Str × Str)
  | [] => []
  | n :: ns => (n, tmplRad (k + 1)) :: buildNamesFrom (k + 1) ns

/-- `result` of `get_camera_names_map`: `result[name] = tmpl % (i+1)` over
the enumerated camera order. -/
def buildNamesMap (names : List Str) : List (Str × Str) := buildNamesFrom 0 names

/-- Lookup in a dict built by repeated assignment: the last insertion for a
key wins. -/
def dictGet (l : List (Str × Str)) (k : Str) : Option Str :=
  (l.reverse.find? (fun p => p.1 == k)).map (fun p => p.2)

/-- `get_camera_names_map`: only the `"rad"` filetype is supported; the map
is built over `read_calibration_names` of the recorded camera order. -/
def get_camera_names_map (camOrderContent : Str) (filetype : Str) :
    Except PyErr (List (Str × Str)) :=
  if filetype == ("rad").toList then
    .ok (buildNamesMap (read_calibration_names camOrderContent))
  else .error .valueError

/-- A camera's observation entry is present and a non-empty array all of
whose rows have exactly 2 columns. -/
def ptsOKb (ptsD : Dict (List (List PyVal))) (c : Str) : Bool :=
  match pyLookup ptsD c with
  | none => false
  | some pts => !pts.isEmpty && pts.all (fun r => r.length == 2)

/-- A camera's resolution entry is present with exactly 2 components. -/
def resOKb (resD : Dict (List ℚ)) (c : Str) : Bool :=
  match pyLookup resD c with
  | none => false
  | some res => res.length == 2

/-- A camera's calibration source, when supplied, is an existing file. -/
def calOKb (calD : Dict Str) (fEx : Str → Bool) (c : Str) : Bool :=
  match pyLookup calD c with
  | none => true
  | some url => fEx url

/-- All per-camera preconditions of the `create_from_cams` loop that are
unrelated to the calibration file's extension. -/
def camOKb (ptsD : Dict (List (List PyVal))) (resD : Dict (List ℚ))
    (calD : Dict Str) (fEx : Str → Bool) (c : Str) : Bool :=
  ptsOKb ptsD c && resOKb resD c && calOKb calD fEx c

/-! ## Helper lemmas about the string primitives -/

theorem pySplitAux_token (t l acc : Str) (h : ∀ c ∈ t, isWs c = false) :
    pySplitAux (t ++ l) acc = pySplitAux l (t.reverse ++ acc) := by
  induction t generalizing acc with
  | nil => simp
  | cons c t' ih =>
    have hc : isWs c = false := h c (by simp)
    simp only [List.cons_append, pySplitAux, hc, Bool.false_eq_true, if_false]
    rw [List.append_eq, ih _ (fun x hx => h x (by simp [hx]))]
    simp

theorem pySplit_joinSp (r : List Str)
    (h : ∀ t ∈ r, t ≠ [] ∧ ∀ c ∈ t, isWs c = false) :
    pySplit (joinSp r) = r := by
  induction r with
  | nil => simp [pySplit, joinSp, pySplitAux]
  | cons t rest ih =>
    obtain ⟨ht, hws⟩ := h t (by simp)
    have hrev : t.reverse ≠ [] := by simpa using ht
    cases rest with
    | nil =>
      show pySplit (joinSp [t]) = [t]
      have : joinSp [t] = t ++ [] := by simp [joinSp]
      rw [pySplit, this, pySplitAux_token t [] [] hws]
      simp [pySplitAux, hrev]
    | cons t2 rest2 =>
      show pySplit (t ++ ' ' :: joinSp (t2 :: rest2)) = t :: t2 :: rest2
      rw [pySplit, pySplitAux_token t _ [] hws]
      have hsp : isWs ' ' = true := by decide
      simp only [List.append_nil, pySplitAux, hsp, if_true, hrev, if_false,
        List.reverse_reverse]
      rw [show pySplitAux (joinSp (t2 :: rest2)) [] = pySplit (joinSp (t2 :: rest2)) from rfl,
        ih (fun x hx => h x (by simp [hx]))]

theorem readlines_append (l s : Str) (h : '\n' ∉ l) :
    readlines (l ++ '\n' :: s) = (l ++ ['\n']) :: readlines s := by
  induction l with
  | nil => simp [readlines]
  | cons c l' ih =>
    have hc : c ≠ '\n' := by rintro rfl; exact h (by simp)
    simp only [List.cons_append, readlines, hc, if_false]
    rw [List.append_eq, ih (fun hx => h (by simp [hx]))]

theorem readlines_save (rows : List (List Str))
    (h : ∀ r ∈ rows, '\n' ∉ joinSp r) :
    readlines (save_ascii_matrix rows) = rows.map (fun r => joinSp r ++ ['\n']) := by
  induction rows with
  | nil => simp [save_ascii_matrix, readlines]
  | cons r rest ih =>
    rw [save_ascii_matrix, readlines_append _ _ (h r (by simp))]
    rw [ih (fun x hx => h x (by simp [hx]))]
    simp

theorem mem_joinSp {c : Char} (r : List Str) (h : c ∈ joinSp r) :
    c = ' ' ∨ ∃ t ∈ r, c ∈ t := by
  induction r with
  | nil => simp [joinSp] at h
  | cons t rest ih =>
    cases rest with
    | nil =>
      simp only [joinSp] at h
      exact Or.inr ⟨t, by simp, h⟩
    | cons t2 rest2 =>
      simp only [joinSp, List.mem_append, List.mem_cons] at h
      rcases h with h | h | h
      · exact Or.inr ⟨t, by simp, h⟩
      · exact Or.inl h
      · rcases ih h with h' | ⟨t', ht', hc⟩
        · exact Or.inl h'
        · exact Or.inr ⟨t', by simp [ht'], hc⟩

theorem head?_append_some {α : Type} {l l' : List α} {c : α}
    (h : l.head? = some c) : (l ++ l').head? = some c := by
  cases l with
  | nil => simp at h
  | cons a t => simpa using h

theorem joinSp_head? (t : Str) (ts : List Str) (h : t ≠ []) :
    (joinSp (t :: ts)).head? = t.head? := by
  cases ts with
  | nil => simp [joinSp]
  | cons t2 rest =>
    cases t with
    | nil => exact absurd rfl h
    | cons c t' => simp [joinSp]

theorem joinSp_ne_nil (t : Str) (ts : List Str) (h : t ≠ []) :
    joinSp (t :: ts) ≠ [] := by
  cases ts with
  | nil => simpa [joinSp] using h
  | cons t2 rest =>
    cases t with
    | nil => exact absurd rfl h
    | cons c t' => simp [joinSp]

theorem joinSp_getLast_ws (r : List Str)
    (h : ∀ t ∈ r, t ≠ [] ∧ ∀ c ∈ t, isWs c = false) (hr : r ≠ []) :
    ∀ c, (joinSp r).getLast? = some c → isWs c = false := by
  induction r with
  | nil => exact absurd rfl hr
  | cons t rest ih =>
    intro c hc
    cases rest with
    | nil =>
      simp only [joinSp] at hc
      exact (h t (by simp)).2 c (List.mem_of_getLast?_eq_some hc)
    | cons t2 rest2 =>
      have hne : joinSp (t2 :: rest2) ≠ [] :=
        joinSp_ne_nil t2 rest2 (h t2 (by simp)).1
      have hun : joinSp (t :: t2 :: rest2) = t ++ ' ' :: joinSp (t2 :: rest2) := rfl
      rw [hun, List.getLast?_append_cons] at hc
      cases hjs : joinSp (t2 :: rest2) with
      | nil => exact absurd hjs hne
      | cons d ds =>
        rw [hjs, List.getLast?_cons_cons] at hc
        refine ih (fun x hx => h x (by simp [hx])) (by simp) c ?_
        rw [hjs]
        exact hc

theorem dropWhile_head_false {p : Char → Bool} (l : Str)
    (h : ∀ c, l.head? = some c → p c = false) : l.dropWhile p = l := by
  cases l with
  | nil => rfl
  | cons c t => simp [List.dropWhile, h c rfl]

theorem pyStrip_line (x : Str)
    (h1 : ∀ c, x.head? = some c → isWs c = false)
    (h2 : ∀ c, x.getLast? = some c → isWs c = false) (hx : x ≠ []) :
    pyStrip (x ++ ['\n']) = x := by
  rw [pyStrip]
  have e1 : (x ++ ['\n']).dropWhile isWs = x ++ ['\n'] := by
    refine dropWhile_head_false _ (fun c hc => ?_)
    cases x with
    | nil => exact absurd rfl hx
    | cons a t => simp at hc; subst hc; exact h1 a rfl
  rw [e1, List.reverse_append]
  have e2 : (['\n'].reverse ++ x.reverse) = '\n' :: x.reverse := by simp
  rw [e2]
  have e3 : ('\n' :: x.reverse).dropWhile isWs = x.reverse.dropWhile isWs := by
    simp [List.dropWhile, show isWs '\n' = true from rfl]
  rw [e3]
  have e4 : x.reverse.dropWhile isWs = x.reverse := by
    refine dropWhile_head_false _ (fun c hc => ?_)
    rw [List.head?_reverse] at hc
    exact h2 c hc
  rw [e4, List.reverse_reverse]

theorem floatCheckRow_ok (r : List Str) (h : ∀ t ∈ r, isPyFloat t = true) :
    floatCheckRow r = .ok r := by
  induction r with
  | nil => rfl
  | cons t ts ih =>
    rw [floatCheckRow, if_pos (h t (by simp)), ih (fun x hx => h x (by simp [hx]))]

theorem loadRows_ok (rs : List (List Str)) (h : ∀ r ∈ rs, ∀ t ∈ r, isPyFloat t = true) :
    loadRows rs = .ok rs := by
  induction rs with
  | nil => rfl
  | cons r rest ih =>
    rw [loadRows, floatCheckRow_ok r (h r (by simp)),
      ih (fun x hx => h x (by simp [hx]))]

theorem goodTok_spec (t : Str) (h : goodTok t = true) :
    t ≠ [] ∧ (∀ c ∈ t, isWs c = false) ∧ (∀ c, t.head? = some c → c ≠ '#') ∧
      isPyFloat t = true := by
  simp only [goodTok, Bool.and_eq_true, Bool.not_eq_true', List.all_eq_true] at h
  obtain ⟨⟨⟨h1, h2⟩, h3⟩, h4⟩ := h
  refine ⟨?_, ?_, ?_, h4⟩
  · intro hnil; rw [hnil] at h1; simp at h1
  · intro c hc; simpa using h2 c hc
  · intro c hc hceq; subst hceq; rw [hc] at h3; simp at h3

theorem roundtrip_good (rows : List (List Str))
    (h : ∀ r ∈ rows, ∀ t ∈ r, goodTok t = true) :
    load_ascii_matrix (save_ascii_matrix rows) = .ok rows := by
  have hnl : ∀ r ∈ rows, '\n' ∉ joinSp r := by
    intro r hr hmem
    rcases mem_joinSp r hmem with h' | ⟨t, ht, hc⟩
    · exact absurd h' (by decide)
    · exact absurd ((goodTok_spec t (h r hr t ht)).2.1 '\n' hc) (by decide)
  rw [load_ascii_matrix, readlines_save rows hnl]
  have hfilter :
      (rows.map (fun r => joinSp r ++ ['\n'])).filter
          (fun l => !(l.head? == some '#')) =
        rows.map (fun r => joinSp r ++ ['\n']) := by
    refine List.filter_eq_self.mpr ?_
    intro line hline
    rw [List.mem_map] at hline
    obtain ⟨r, hr, rfl⟩ := hline
    cases r with
    | nil => decide
    | cons t ts =>
      have spec := goodTok_spec t (h _ hr t (by simp))
      cases t with
      | nil => exact absurd rfl spec.1
      | cons c t' =>
        have hh : (joinSp ((c :: t') :: ts)).head? = some c := by
          rw [joinSp_head? _ ts spec.1]; rfl
        have hhl : (joinSp ((c :: t') :: ts) ++ ['\n']).head? = some c :=
          head?_append_some hh
        have hcne : c ≠ '#' := spec.2.2.1 c rfl
        simp [hhl, hcne]
  rw [hfilter, List.map_map]
  have hmap :
      rows.map ((fun l => pySplit (pyStrip l)) ∘ fun r => joinSp r ++ ['\n']) =
        rows := by
    have hcongr : ∀ r ∈ rows,
        ((fun l => pySplit (pyStrip l)) ∘ fun r => joinSp r ++ ['\n']) r = id r := by
      intro r hr
      cases r with
      | nil => decide
      | cons t ts =>
        have hall : ∀ x ∈ t :: ts, x ≠ [] ∧ ∀ c ∈ x, isWs c = false := by
          intro x hx
          have spec := goodTok_spec x (h _ hr x hx)
          exact ⟨spec.1, spec.2.1⟩
        have hne := (hall t (by simp)).1
        have hstrip : pyStrip (joinSp (t :: ts) ++ ['\n']) = joinSp (t :: ts) := by
          refine pyStrip_line _ ?_ ?_ (joinSp_ne_nil t ts hne)
          · intro c hc
            rw [joinSp_head? _ ts hne] at hc
            cases t with
            | nil => exact absurd rfl hne
            | cons a t' =>
              have hac : a = c := by simpa using hc
              subst hac
              exact (hall (a :: t') (by simp)).2 a (by simp)
          · exact joinSp_getLast_ws (t :: ts) hall (by simp)
        simp only [Function.comp, hstrip, id]
        exact pySplit_joinSp (t :: ts) hall
    calc rows.map ((fun l => pySplit (pyStrip l)) ∘ fun r => joinSp r ++ ['\n'])
        = rows.map id := List.map_congr_left hcongr
      _ = rows := List.map_id rows
  rw [hmap]
  exact loadRows_ok rows (fun r hr t ht => (goodTok_spec t (h r hr t ht)).2.2.2)

theorem floatCheckRow_error_kind (r : List Str) (e : PyErr)
    (h : floatCheckRow r = .error e) : e = .formatError := by
  induction r with
  | nil => simp [floatCheckRow] at h
  | cons t ts ih =>
    rw [floatCheckRow] at h
    by_cases hp : isPyFloat t = true
    · rw [if_pos hp] at h
      cases hrec : floatCheckRow ts with
      | ok l => rw [hrec] at h; simp at h
      | error e' => rw [hrec] at h; simp at h; rw [h] at hrec; exact ih hrec
    · rw [if_neg hp] at h
      simpa using h.symm

theorem floatCheckRow_ok_inv (r r' : List Str) (h : floatCheckRow r = .ok r') :
    ∀ t ∈ r, isPyFloat t = true := by
  induction r generalizing r' with
  | nil => simp
  | cons t ts ih =>
    rw [floatCheckRow] at h
    by_cases hp : isPyFloat t = true
    · rw [if_pos hp] at h
      cases hrec : floatCheckRow ts with
      | ok l =>
        intro x hx
        rcases List.mem_cons.mp hx with rfl | hx'
        · exact hp
        · exact ih l hrec x hx'
      | error e' => rw [hrec] at h; simp at h
    · rw [if_neg hp] at h; simp at h

theorem loadRows_error_kind (rs : List (List Str)) (e : PyErr)
    (h : loadRows rs = .error e) : e = .formatError := by
  induction rs with
  | nil => simp [loadRows] at h
  | cons r rest ih =>
    rw [loadRows] at h
    cases hrow : floatCheckRow r with
    | error e' =>
      rw [hrow] at h; simp at h; rw [h] at hrow
      exact floatCheckRow_error_kind r e hrow
    | ok r' =>
      rw [hrow] at h
      cases hrec : loadRows rest with
      | ok l => rw [hrec] at h; simp at h
      | error e' => rw [hrec] at h; simp at h; rw [h] at hrec; exact ih hrec

theorem loadRows_ok_inv (rs v : List (List Str)) (h : loadRows rs = .ok v) :
    ∀ r ∈ rs, ∀ t ∈ r, isPyFloat t = true := by
  induction rs generalizing v with
  | nil => simp
  | cons r rest ih =>
    rw [loadRows] at h
    cases hrow : floatCheckRow r with
    | error e' => rw [hrow] at h; simp at h
    | ok r' =>
      rw [hrow] at h
      cases hrec : loadRows rest with
      | error e' => rw [hrec] at h; simp at h
      | ok l =>
        intro x hx
        rcases List.mem_cons.mp hx with rfl | hx'
        · exact floatCheckRow_ok_inv x r' hrow
        · exact ih l hrec x hx'

/-! ## Claim C2 -/

/-- C2: for every 2-dimensional rectangular numeric array (values represented
by their `repr` tokens), reading back a file produced by `save_ascii_matrix`
with `load_ascii_matrix` reproduces the values; a boolean array is first
converted to its 0/1 unsigned 8-bit form and then round-trips likewise. -/
theorem C2_save_load_roundtrip :
    (∀ rows : List (List Str), isRect rows = true →
        (∀ r ∈ rows, ∀ t ∈ r, goodTok t = true) →
        load_ascii_matrix (save_ascii_matrix rows) = .ok rows) ∧
    (∀ brows : List (List Bool), isRect brows = true →
        load_ascii_matrix (save_ascii_matrix_bool brows) =
          .ok (brows.map (fun r => r.map boolTok))) := by
  constructor
  · intro rows _ h
    exact roundtrip_good rows h
  · intro brows _
    rw [save_ascii_matrix_bool]
    apply roundtrip_good
    intro r hr t ht
    rw [List.mem_map] at hr
    obtain ⟨br, _, rfl⟩ := hr
    rw [List.mem_map] at ht
    obtain ⟨b, _, rfl⟩ := ht
    cases b <;> decide

/-- Witness for C2 at a concrete numeric and a concrete boolean matrix. -/
theorem C2_save_load_roundtrip_witness :
    load_ascii_matrix (save_ascii_matrix
        [[("1.0").toList, ("2.5").toList], [("nan").toList, ("-3.0").toList]]) =
      .ok [[("1.0").toList, ("2.5").toList], [("nan").toList, ("-3.0").toList]] ∧
    load_ascii_matrix (save_ascii_matrix_bool [[true, false]]) =
      .ok ([[true, false]].map (fun r => r.map boolTok)) :=
  ⟨C2_save_load_roundtrip.1 _ (by decide) (by decide),
   C2_save_load_roundtrip.2 [[true, false]] (by decide)⟩

/-! ## Claim C7 -/

/-- C7 (amended): `load_ascii_matrix` fails with a FormatError for every input
containing a non-comment row with a token `float()` rejects; an empty input
file, however, does not fail (it yields the empty matrix, see the
counterexample). -/
theorem C7_format_error_on_bad_row :
    ∀ content : Str,
      (∃ l ∈ (readlines content).filter (fun l => !(l.head? == some '#')),
          ∃ t ∈ pySplit (pyStrip l), isPyFloat t = false) →
      load_ascii_matrix content = .error .formatError := by
  intro content h
  obtain ⟨l, hl, t, ht, hbad⟩ := h
  show loadRows
      (((readlines content).filter (fun l => !(l.head? == some '#'))).map
        (fun l => pySplit (pyStrip l))) = .error .formatError
  cases hres : loadRows
      (((readlines content).filter (fun l => !(l.head? == some '#'))).map
        (fun l => pySplit (pyStrip l))) with
  | error e => rw [loadRows_error_kind _ e hres]
  | ok v =>
    exfalso
    have hmem : pySplit (pyStrip l) ∈
        ((readlines content).filter (fun l => !(l.head? == some '#'))).map
          (fun l => pySplit (pyStrip l)) :=
      List.mem_map.mpr ⟨l, hl, rfl⟩
    have := loadRows_ok_inv _ v hres (pySplit (pyStrip l)) hmem t ht
    rw [hbad] at this
    exact Bool.false_ne_true this

/-- Witness for C7 at a file whose single row is the unparsable token `abc`. -/
theorem C7_format_error_witness :
    load_ascii_matrix (("abc\n").toList) = .error .formatError :=
  C7_format_error_on_bad_row _ (by decide)

/-- C7 counterexample: contrary to the claim, an empty input file does not
fail — `load_ascii_matrix` returns the empty matrix. -/
theorem C7_empty_file_counterexample : load_ascii_matrix [] = .ok [] := by decide

/-! ## Claims C9 and C10 (`_write_cam_ids` / `read_calibration_names`) -/

theorem splitNl_append (l s : Str) (h : '\n' ∉ l) :
    splitNl (l ++ '\n' :: s) = l :: splitNl s := by
  induction l with
  | nil => simp [splitNl]
  | cons c l' ih =>
    have hc : c ≠ '\n' := by rintro rfl; exact h (by simp)
    simp only [List.cons_append, splitNl, hc, if_false]
    rw [List.append_eq, ih (fun hx => h (by simp [hx]))]

theorem write_cam_ids_ok (ids : List Str) (h : ∀ id ∈ ids, id ≠ []) :
    write_cam_ids ids = .ok (ids.map stripSlash) := by
  induction ids with
  | nil => rfl
  | cons id rest ih =>
    cases id with
    | nil => exact absurd rfl (h [] (by simp))
    | cons c r =>
      rw [write_cam_ids, ih (fun x hx => h x (by simp [hx]))]
      simp [stripSlash]

theorem write_cam_ids_error_of_mem (ids : List Str) (h : [] ∈ ids) :
    write_cam_ids ids = .error .indexError := by
  induction ids with
  | nil => simp at h
  | cons id rest ih =>
    rcases List.mem_cons.mp h with hid | hmem
    · rw [← hid]; rfl
    · cases id with
      | nil => rfl
      | cons c r => rw [write_cam_ids, ih hmem]

theorem stripSlash_sub (s : Str) (c : Char) (h : c ∈ stripSlash s) : c ∈ s := by
  cases s with
  | nil => simp [stripSlash] at h
  | cons a r =>
    by_cases ha : a = '/'
    · simp only [stripSlash, ha, if_true] at h
      simp [h]
    · simpa only [stripSlash, ha, if_false] using h

theorem read_calibration_names_joinNl (ls : List Str) (h : ∀ l ∈ ls, '\n' ∉ l) :
    read_calibration_names (joinNl ls) = ls := by
  have hsplit : splitNl (joinNl ls) = ls ++ [[]] := by
    induction ls with
    | nil => rfl
    | cons l rest ih =>
      rw [joinNl, splitNl_append l _ (h l (by simp)),
        ih (fun x hx => h x (by simp [hx]))]
      rfl
  rw [read_calibration_names, hsplit]
  simp

/-- C9 (amended): for every sequence of non-empty, newline-free camera ids,
writing with `_write_cam_ids` and reading back with `read_calibration_names`
yields the original sequence with a single leading `/` stripped from each id
(the trailing blank entry from the final newline being discarded). -/
theorem C9_cam_order_roundtrip :
    ∀ ids : List Str, (∀ id ∈ ids, id ≠ [] ∧ '\n' ∉ id) →
      ∃ lines, write_cam_ids ids = .ok lines ∧
        read_calibration_names (joinNl lines) = ids.map stripSlash := by
  intro ids h
  refine ⟨ids.map stripSlash, write_cam_ids_ok ids (fun id hid => (h id hid).1), ?_⟩
  apply read_calibration_names_joinNl
  intro l hl hmem
  rw [List.mem_map] at hl
  obtain ⟨id, hid, rfl⟩ := hl
  exact (h id hid).2 (stripSlash_sub id '\n' hmem)

/-- Witness for C9 on the ids `camA` and `/camB`. -/
theorem C9_cam_order_roundtrip_witness :
    ∃ lines, write_cam_ids [("camA").toList, ("/camB").toList] = .ok lines ∧
      read_calibration_names (joinNl lines) =
        [("camA").toList, ("/camB").toList].map stripSlash :=
  C9_cam_order_roundtrip _ (by decide)

/-- C9 counterexample: an id containing a newline is a non-empty camera id
for which the round trip does not return the original sequence (the claim
quantifies over every sequence of non-empty ids). -/
theorem C9_newline_counterexample :
    write_cam_ids [("a\nb").toList] = .ok [("a\nb").toList] ∧
    read_calibration_names (joinNl [("a\nb").toList]) = [['a'], ['b']] ∧
    [['a'], ['b']] ≠ [("a\nb").toList].map stripSlash := by decide

/-- C10: `_write_cam_ids` inspects the first character of every id, so it
fails (IndexError) on any list containing an empty id; for a list of
non-empty ids the error branch is unreachable and one line is written per
camera. -/
theorem C10_write_cam_ids_empty_id :
    ∀ ids : List Str,
      ([] ∈ ids → write_cam_ids ids = .error .indexError) ∧
      ([] ∉ ids → write_cam_ids ids = .ok (ids.map stripSlash) ∧
        (ids.map stripSlash).length = ids.length) := by
  intro ids
  constructor
  · exact write_cam_ids_error_of_mem ids
  · intro hnot
    refine ⟨write_cam_ids_ok ids (fun id hid => ?_), by simp⟩
    rintro rfl
    exact hnot hid

/-- Witness for C10: a list containing an empty id fails, a list of
non-empty ids writes one line per camera. -/
theorem C10_write_cam_ids_witness :
    write_cam_ids [[], ("a").toList] = .error .indexError ∧
    (write_cam_ids [("a").toList, ("/b").toList] =
        .ok ([("a").toList, ("/b").toList].map stripSlash) ∧
      ([("a").toList, ("/b").toList].map stripSlash).length =
        [("a").toList, ("/b").toList].length) :=
  ⟨(C10_write_cam_ids_empty_id [[], ("a").toList]).1 (by decide),
   (C10_write_cam_ids_empty_id [("a").toList, ("/b").toList]).2 (by decide)⟩

/-! ## Claim C1 (visibility row) -/

theorem foundRow_append (l r : List PyVal) (v : PyVal) :
    foundRow (l ++ v :: r) = foundRow l ++ min (nanToNum v) 1 :: foundRow r := by
  simp [foundRow]

/-- C1 (amended): the visibility row maps every NaN entry to 0, every finite
entry that is at least 1 to 1, and every finite entry at most 1 to itself
(each entry `v` becomes `min (nan_to_num v) 1`); in particular the row
derived from the observation column `[5.0, NaN, 0.0]` is `[1, 0, 0]`, checked
through the full `create_from_cams` pipeline. -/
theorem C1_visibility_row :
    (∀ l r : List PyVal,
        foundRow (l ++ PyVal.nan :: r) = foundRow l ++ 0 :: foundRow r) ∧
    (∀ (l r : List PyVal) (q : ℚ), 1 ≤ q →
        foundRow (l ++ PyVal.num q :: r) = foundRow l ++ 1 :: foundRow r) ∧
    (∀ (l r : List PyVal) (q : ℚ), q ≤ 1 →
        foundRow (l ++ PyVal.num q :: r) = foundRow l ++ q :: foundRow r) ∧
    (create_from_cams (("out").toList) (("cam").toList) 1 [("camA").toList]
        [(("camA").toList, [640, 480])]
        [(("camA").toList, [[.num 5, .num 7], [.nan, .nan], [.num 0, .num 3]])]
        [] (-1) (fun _ => true)).idmatLines = [[1, 0, 0]] := by
  refine ⟨?_, ?_, ?_, by decide⟩
  · intro l r
    rw [foundRow_append]
    norm_num [nanToNum]
  · intro l r q hq
    rw [foundRow_append]
    rw [show nanToNum (PyVal.num q) = q from rfl, min_eq_right hq]
  · intro l r q hq
    rw [foundRow_append]
    rw [show nanToNum (PyVal.num q) = q from rfl, min_eq_left hq]

/-- Witness for C1 on single-entry columns (a NaN, an entry ≥ 1, and an
entry ≤ 1). -/
theorem C1_visibility_row_witness :
    foundRow [PyVal.nan] = foundRow [] ++ 0 :: foundRow [] ∧
    foundRow [PyVal.num 5] = foundRow [] ++ 1 :: foundRow [] ∧
    foundRow [PyVal.num (-3)] = foundRow [] ++ (-3) :: foundRow [] :=
  ⟨C1_visibility_row.1 [] [],
   C1_visibility_row.2.1 [] [] 5 (by norm_num),
   C1_visibility_row.2.2.1 [] [] (-3) (by norm_num)⟩

/-- C1 counterexample: a finite non-zero entry below 1 is not coerced to 1 —
with a camera whose x-coordinates are `[-3]`, the visibility row written by
`create_from_cams` is `[-3]`, not `[1]`. -/
theorem C1_clip_counterexample :
    (create_from_cams (("out").toList) (("cam").toList) 1 [("camA").toList]
        [(("camA").toList, [640, 480])]
        [(("camA").toList, [[.num (-3), .num 2]])]
        [] (-1) (fun _ => true)).idmatLines = [[-3]] ∧
    ¬ ((-3 : ℚ) = 1) := by decide

/-! ## Claim C5 (`_write_cfg` clamping) -/

theorem listStartsWith_refl_append (x z : Str) : listStartsWith x (x ++ z) = true := by
  induction x with
  | nil => rfl
  | cons c t ih => simp [listStartsWith, ih]

theorem listStartsWith_append_same (x y z : Str) :
    listStartsWith (x ++ y) (x ++ z) = listStartsWith y z := by
  induction x with
  | nil => rfl
  | cons c t ih => simp [listStartsWith, ih]

theorem containsSeq_of_sw (pat s : Str) (h : listStartsWith pat s = true) :
    containsSeq pat s = true := by
  cases s with
  | nil =>
    cases pat with
    | nil => rfl
    | cons p ps => simp [listStartsWith] at h
  | cons c cs => simp [containsSeq, h]

theorem containsSeq_append_left (a pat s : Str) (h : containsSeq pat s = true) :
    containsSeq pat (a ++ s) = true := by
  induction a with
  | nil => simpa using h
  | cons c t ih => simp [containsSeq, ih]

theorem intChars_natCast (n : Nat) : intChars (n : Int) = natChars n := by
  rw [intChars, if_neg (by simp), Int.toNat_natCast]

theorem nlDo_split : ("\nDo-Bundle-Adjustment: 1\nUndo-Radial: ").toList =
    '\n' :: ("Do-Bundle-Adjustment: 1\nUndo-Radial: ").toList := rfl

theorem cfg_contains_fill (bn : Str) (ncam : Nat) (nfill undo sq : Int) (nth : Nat) :
    containsSeq (("Num-Cameras-Fill: ").toList ++ intChars nfill ++ ['\n'])
      (cfgRender bn ncam nfill undo sq nth) = true := by
  rw [cfgRender]
  simp only [nlDo_split, List.append_assoc, List.cons_append]
  apply containsSeq_append_left
  apply containsSeq_append_left
  apply containsSeq_append_left
  apply containsSeq_append_left
  apply containsSeq_append_left
  apply containsSeq_append_left
  apply containsSeq_append_left
  apply containsSeq_append_left
  apply containsSeq_of_sw
  rw [listStartsWith_append_same, listStartsWith_append_same]
  simp [listStartsWith]

set_option maxRecDepth 100000 in
/-- C5: the `Num-Cameras-Fill` value written to the configuration is
`len(cam_ids)` whenever `num_cameras_fill` is negative or exceeds
`len(cam_ids)`, and is `num_cameras_fill` unchanged when it lies inside
`[0, len(cam_ids)]`; in particular with the two cameras `camA`, `camB` and
`num_cameras_fill = -1` the rendered configuration contains both
`Num-Cameras: 2` and `Num-Cameras-Fill: 2` lines. -/
theorem C5_num_cameras_fill :
    (∀ (bn : Str) (nth : Nat) (ids : List Str) (radial sq fill : Int),
        ((fill < 0 ∨ (ids.length : Int) < fill) →
          containsSeq
              (("Num-Cameras-Fill: ").toList ++ natChars ids.length ++ ['\n'])
              (write_cfg bn nth ids radial sq fill) = true) ∧
        (0 ≤ fill → fill ≤ (ids.length : Int) →
          containsSeq (("Num-Cameras-Fill: ").toList ++ intChars fill ++ ['\n'])
              (write_cfg bn nth ids radial sq fill) = true)) ∧
    (containsSeq (("Num-Cameras: 2\n").toList)
        (write_cfg (("cam").toList) 1 [("camA").toList, ("camB").toList] 0 1 (-1)) =
          true ∧
      containsSeq (("Num-Cameras-Fill: 2\n").toList)
        (write_cfg (("cam").toList) 1 [("camA").toList, ("camB").toList] 0 1 (-1)) =
          true) := by
  constructor
  · intro bn nth ids radial sq fill
    constructor
    · intro h
      rw [write_cfg]
      simp only [if_pos h]
      rw [← intChars_natCast]
      exact cfg_contains_fill bn ids.length _ radial sq nth
    · intro h0 h1
      rw [write_cfg]
      have hneg : ¬ (fill < 0 ∨ fill > (ids.length : Int)) := by omega
      simp only [if_neg hneg]
      exact cfg_contains_fill bn ids.length fill radial sq nth
  · exact ⟨by decide, by decide⟩

/-- Witness for C5: clamping at `fill = -1` with two cameras, and
pass-through at `fill = 1`. -/
theorem C5_num_cameras_fill_witness :
    containsSeq
        (("Num-Cameras-Fill: ").toList ++
          natChars ([("camA").toList, ("camB").toList].length) ++ ['\n'])
        (write_cfg (("cam").toList) 1 [("camA").toList, ("camB").toList] 0 1 (-1)) =
      true ∧
    containsSeq (("Num-Cameras-Fill: ").toList ++ intChars 1 ++ ['\n'])
        (write_cfg (("cam").toList) 1 [("camA").toList, ("camB").toList] 0 1 1) =
      true :=
  ⟨(C5_num_cameras_fill.1 (("cam").toList) 1 _ 0 1 (-1)).1 (Or.inl (by decide)),
   (C5_num_cameras_fill.1 (("cam").toList) 1 _ 0 1 1).2 (by decide) (by decide)⟩

/-! ## Claim C4 (`create_calibration_directory` length checks) -/

/-- C4: the length check against the calibrations argument is guarded by
`cam_calibrations != None`, which is also true of the *default* empty dict —
so a call that supplies no calibrations (leaving the default `{}`) still
runs the check and fails with an AssertionError even though `len(Res)`
matches `len(cam_ids)`; only an explicit `None` skips the check and writes
the five files.  This contradicts the claim (and the spec's intent) that the
check applies only when calibrations are supplied. -/
theorem C4_default_calibrations_bug :
    create_calibration_directory (("cam").toList) 1 [("cam1").toList] [[1]]
        [[.num 1], [.num 2], [.num 1]] [[640, 480]] (some []) 0 1 (-1) =
      .error .assertionError ∧
    (create_calibration_directory (("cam").toList) 1 [("cam1").toList] [[1]]
        [[.num 1], [.num 2], [.num 1]] [[640, 480]] none 0 1 (-1)).isOk =
      true ∧
    create_calibration_directory (("cam").toList) 1 [("cam1").toList] [[1]]
        [[.num 1], [.num 2], [.num 1]] [] (some []) 0 1 (-1) =
      .error .assertionError := by
  refine ⟨by decide, ?_, by decide⟩
  decide

/-! ## Claim C6 (`get_camera_names_map` naming) -/

theorem buildNamesFrom_keys (ns : List Str) (k : Nat) :
    (buildNamesFrom k ns).map (fun p => p.1) = ns := by
  induction ns generalizing k with
  | nil => rfl
  | cons n ns' ih => simp [buildNamesFrom, ih]

theorem dictGet_buildNamesFrom (names : List Str) (k i : Nat)
    (h : i < names.length) (hnd : names.Nodup) :
    dictGet (buildNamesFrom k names) (names.get ⟨i, h⟩) =
      some (tmplRad (k + i + 1)) := by
  induction names generalizing k i with
  | nil => simp at h
  | cons n ns ih =>
    have hnot : n ∉ ns := (List.nodup_cons.mp hnd).1
    have hnd' : ns.Nodup := (List.nodup_cons.mp hnd).2
    cases i with
    | zero =>
      show dictGet ((n, tmplRad (k + 1)) :: buildNamesFrom (k + 1) ns) n =
        some (tmplRad (k + 0 + 1))
      rw [dictGet, List.reverse_cons, List.find?_append]
      have hnone : (buildNamesFrom (k + 1) ns).reverse.find?
          (fun p => p.1 == n) = none := by
        rw [List.find?_eq_none]
        intro x hx
        have hx1 : x.1 ∈ ns := by
          have := List.mem_map_of_mem (fun p => p.1) (List.mem_reverse.mp hx)
          rwa [buildNamesFrom_keys] at this
        simp only [Bool.not_eq_true, beq_eq_false_iff_ne]
        rintro rfl
        exact hnot hx1
      rw [hnone, Option.none_or, List.find?_cons_of_pos _ (by simp)]
      simp
    | succ j =>
      have hj : j < ns.length := by simpa using h
      have hkey : (n :: ns).get ⟨j + 1, h⟩ = ns.get ⟨j, hj⟩ := rfl
      rw [hkey]
      show dictGet ((n, tmplRad (k + 1)) :: buildNamesFrom (k + 1) ns)
          (ns.get ⟨j, hj⟩) = some (tmplRad (k + (j + 1) + 1))
      have ihj := ih (k + 1) j hj hnd'
      rw [dictGet] at ihj ⊢
      rw [List.reverse_cons, List.find?_append]
      cases hfind : (buildNamesFrom (k + 1) ns).reverse.find?
          (fun p => p.1 == ns.get ⟨j, hj⟩) with
      | none => rw [hfind, Option.map_none'] at ihj; exact absurd ihj (by simp)
      | some pair =>
        rw [hfind, Option.map_some'] at ihj
        rw [Option.or_some, Option.map_some']
        have harith : k + 1 + j + 1 = k + (j + 1) + 1 := by omega
        rw [harith] at ihj
        exact ihj

/-- C6 (amended): `get_camera_names_map` maps the camera id at 0-based
position `i` of the recorded camera order to the radial file name
`basename<i+1>.rad` built from the *literal* word `basename`; this equals the
name under which `create_from_cams` materializes that camera's radial file
(`<basename><i+1>.rad`) exactly when the configured basename is the string
`"basename"` (with the default `"cam"` the two names differ). -/
theorem C6_camera_names_map :
    (∀ (names : List Str) (i : Nat) (h : i < names.length), names.Nodup →
        dictGet (buildNamesMap names) (names.get ⟨i, h⟩) =
          some (tmplRad (i + 1))) ∧
    (∀ (bn : Str) (i : Nat),
        tmplRad (i + 1) = bn ++ natChars (i + 1) ++ (".rad").toList ↔
          bn = ("basename").toList) := by
  constructor
  · intro names i h hnd
    have := dictGet_buildNamesFrom names 0 i h hnd
    simpa [buildNamesMap] using this
  · intro bn i
    constructor
    · intro he
      rw [tmplRad] at he
      exact (List.append_cancel_right (List.append_cancel_right he)).symm
    · rintro rfl
      rfl

/-- Witness for C6 on the two-camera order `[camA, camB]` at position 1, and
the name-coincidence direction at `bn = "basename"`. -/
theorem C6_camera_names_map_witness :
    dictGet (buildNamesMap [("camA").toList, ("camB").toList])
        ([("camA").toList, ("camB").toList].get ⟨1, by decide⟩) =
      some (tmplRad 2) ∧
    tmplRad 1 = ("basename").toList ++ natChars 1 ++ (".rad").toList :=
  ⟨C6_camera_names_map.1 [("camA").toList, ("camB").toList] 1 (by decide)
      (by decide),
   (C6_camera_names_map.2 (("basename").toList) 0).mpr rfl⟩

/-! ## Claims C3 and C8 (`create_from_cams`) -/

theorem camsToRemove_ok (ptsD : Dict (List (List PyVal))) (ids : List Str)
    (h : ∀ c ∈ ids, (pyLookup ptsD c).isSome) :
    camsToRemove ptsD ids = .ok (droppedIds ptsD ids) := by
  induction ids with
  | nil => rfl
  | cons c rest ih =>
    obtain ⟨pts, hpts⟩ := Option.isSome_iff_exists.mp (h c (by simp))
    rw [camsToRemove, hpts, ih (fun x hx => h x (by simp [hx]))]
    have hnv : nvalid pts = nvalidOf ptsD c := by rw [nvalidOf, hpts]; rfl
    show Except.ok
        (if nvalid pts = 0 then c :: droppedIds ptsD rest else droppedIds ptsD rest) =
      Except.ok (droppedIds ptsD (c :: rest))
    by_cases h0 : nvalid pts = 0
    · rw [if_pos h0]
      simp only [droppedIds]
      rw [List.filter_cons_of_pos (by simp [← hnv, beq_iff_eq, h0])]
    · rw [if_neg h0]
      simp only [droppedIds]
      rw [List.filter_cons_of_neg (by simp [← hnv, beq_iff_eq, h0])]

theorem cons_diff_not_mem (a : Str) (l₁ l₂ : List Str) (h : a ∉ l₂) :
    (a :: l₁).diff l₂ = a :: l₁.diff l₂ := by
  induction l₂ generalizing l₁ with
  | nil => rfl
  | cons b l₂' ih =>
    have hab : a ≠ b := fun he => h (by simp [he])
    rw [List.diff_cons, List.diff_cons, List.erase_cons_tail (by simpa using hab)]
    exact ih _ (fun hm => h (by simp [hm]))

theorem diff_filter_self (l : List Str) (p : Str → Bool) :
    l.diff (l.filter p) = l.filter (fun c => !p c) := by
  induction l with
  | nil => rfl
  | cons a t ih =>
    by_cases hp : p a = true
    · rw [List.filter_cons_of_pos hp, List.diff_cons, List.erase_cons_head,
        List.filter_cons_of_neg (by simp [hp]), ih]
    · have hnot : a ∉ t.filter p := by
        intro hmem
        exact absurd (List.of_mem_filter hmem) (by simp [hp])
      rw [List.filter_cons_of_neg (by simpa using hp),
        List.filter_cons_of_pos (by simp [hp]), cons_diff_not_mem a t _ hnot, ih]

theorem create_from_cams_eq (outd bn : Str) (nth : Nat) (ids : List Str)
    (resD : Dict (List ℚ)) (ptsD : Dict (List (List PyVal))) (calD : Dict Str)
    (fill : Int) (fEx : Str → Bool)
    (h1 : ids ≠ []) (h2 : ∀ c ∈ ids, (pyLookup ptsD c).isSome)
    (h3 : ∀ c ∈ effIds ptsD ids, c ≠ []) :
    create_from_cams outd bn nth ids resD ptsD calD fill fEx =
      cfcFinish outd bn nth resD ptsD calD fill fEx (effIds ptsD ids)
        (droppedIds ptsD ids) (.ok ((effIds ptsD ids).map stripSlash)) := by
  have hie : ids.isEmpty = false := by
    cases ids with
    | nil => exact absurd rfl h1
    | cons _ _ => rfl
  have hdiff : ids.diff (droppedIds ptsD ids) = effIds ptsD ids :=
    diff_filter_self ids _
  rw [create_from_cams]
  simp only [hie, Bool.false_eq_true, if_false]
  rw [camsToRemove_ok ptsD ids h2, cfcAfterRemove]
  simp only [hdiff]
  rw [write_cam_ids_ok _ h3]

/-- C3: every camera whose observation array has no finite non-zero value
after NaN coercion is removed from the active set (and reported as dropped)
before any file is written: the dropped list is exactly the invalid cameras
and the written camera order is exactly the surviving cameras in their
original relative order (each with a single leading `/` stripped). -/
theorem C3_drop_cameras_without_points :
    ∀ (outd bn : Str) (nth : Nat) (ids : List Str) (resD : Dict (List ℚ))
      (ptsD : Dict (List (List PyVal))) (calD : Dict Str) (fill : Int)
      (fEx : Str → Bool),
      ids ≠ [] → (∀ c ∈ ids, (pyLookup ptsD c).isSome) →
      (∀ c ∈ ids, c ≠ []) →
      (create_from_cams outd bn nth ids resD ptsD calD fill fEx).dropped =
          ids.filter (fun c => nvalidOf ptsD c == 0) ∧
      (create_from_cams outd bn nth ids resD ptsD calD fill fEx).camOrder =
          some ((ids.filter (fun c => !(nvalidOf ptsD c == 0))).map stripSlash) := by
  intro outd bn nth ids resD ptsD calD fill fEx h1 h2 h3
  rw [create_from_cams_eq outd bn nth ids resD ptsD calD fill fEx h1 h2
    (fun c hc => h3 c (List.mem_of_mem_filter hc))]
  exact ⟨rfl, rfl⟩

/-- Witness for C3: of three cameras, `camB` (all NaN) is dropped and
`camA`, `camC` survive in order. -/
theorem C3_drop_cameras_witness :
    (create_from_cams (("out").toList) (("cam").toList) 1
          [("camA").toList, ("camB").toList, ("camC").toList]
          [(("camA").toList, [640, 480]), (("camB").toList, [640, 480]),
            (("camC").toList, [640, 480])]
          [(("camA").toList, [[.num 1, .num 2]]),
            (("camB").toList, [[.nan, .nan]]),
            (("camC").toList, [[.num 3, .num 4]])]
          [] (-1) (fun _ => true)).dropped =
        [("camA").toList, ("camB").toList, ("camC").toList].filter
          (fun c =>
            nvalidOf
                [(("camA").toList, [[.num 1, .num 2]]),
                  (("camB").toList, [[.nan, .nan]]),
                  (("camC").toList, [[.num 3, .num 4]])] c == 0) ∧
    (create_from_cams (("out").toList) (("cam").toList) 1
          [("camA").toList, ("camB").toList, ("camC").toList]
          [(("camA").toList, [640, 480]), (("camB").toList, [640, 480]),
            (("camC").toList, [640, 480])]
          [(("camA").toList, [[.num 1, .num 2]]),
            (("camB").toList, [[.nan, .nan]]),
            (("camC").toList, [[.num 3, .num 4]])]
          [] (-1) (fun _ => true)).camOrder =
        some
          (([("camA").toList, ("camB").toList, ("camC").toList].filter
              (fun c =>
                !(nvalidOf
                    [(("camA").toList, [[.num 1, .num 2]]),
                      (("camB").toList, [[.nan, .nan]]),
                      (("camC").toList, [[.num 3, .num 4]])] c == 0))).map
            stripSlash) :=
  C3_drop_cameras_without_points (("out").toList) (("cam").toList) 1 _ _ _ []
    (-1) (fun _ => true) (by decide) (by decide) (by decide)

theorem cfcLoop_unsupported (outd bn : Str) (ptsD : Dict (List (List PyVal)))
    (resD : Dict (List ℚ)) (calD : Dict Str) (fEx : Str → Bool) (cam url : Str)
    (hurl : pyLookup calD cam = some url)
    (hyaml : listEndsWith ((".yaml").toList) url = false)
    (hrad : listEndsWith ((".rad").toList) url = false) :
    ∀ (cams : List Str) (i : Nat) (st : CfcState),
      (∀ c ∈ cams, camOKb ptsD resD calD fEx c = true) →
      cam ∈ cams → st.error = none → (∀ e ∈ st.radFiles, e.1 ≠ cam) →
      (∃ u, (cfcLoop outd bn ptsD resD calD fEx cams i st).error =
          some (.unsupportedFormat u)) ∧
      ∀ e ∈ (cfcLoop outd bn ptsD resD calD fEx cams i st).radFiles,
        e.1 ≠ cam := by
  intro cams
  induction cams with
  | nil => intro i st _ hmem; simp at hmem
  | cons c rest ih =>
    intro i st hcams hmem herr hradinv
    have hok := hcams c (by simp)
    rw [camOKb, Bool.and_eq_true, Bool.and_eq_true] at hok
    obtain ⟨⟨hpts, hres⟩, hcal⟩ := hok
    cases hp : pyLookup ptsD c with
    | none => rw [ptsOKb, hp] at hpts; exact absurd hpts (by simp)
    | some pts =>
    rw [ptsOKb, hp, Bool.and_eq_true, Bool.not_eq_true'] at hpts
    obtain ⟨hE, hall⟩ := hpts
    cases pts with
    | nil => simp at hE
    | cons p ps =>
    have hlen : ∀ r ∈ p :: ps, r.length = 2 := by
      intro r hr
      simpa using List.all_eq_true.mp hall r hr
    cases hr : pyLookup resD c with
    | none => rw [resOKb, hr] at hres; exact absurd hres (by simp)
    | some res =>
    rw [resOKb, hr] at hres
    have hres2 : (res.length != 2) = false := by
      have : res.length = 2 := by simpa using hres
      simp [this]
    have hany : ((p :: ps).any fun r => r.length != p.length) = false := by
      rw [List.any_eq_false]
      intro r hr
      simp [hlen r hr, hlen p (by simp)]
    have hp2 : (p.length != 2) = false := by simp [hlen p (by simp)]
    cases hc : pyLookup calD c with
    | none =>
      have hcamne : cam ≠ c := by
        rintro rfl
        rw [hurl] at hc
        cases hc
      simp only [cfcLoop, hp, hr, hc, List.isEmpty_cons, Bool.false_eq_true,
        if_false, List.headD_cons, hany, hp2, hres2]
      refine ih (i + 1) _ (fun x hx => hcams x (by simp [hx])) ?_ herr hradinv
      rcases List.mem_cons.mp hmem with rfl | hm
      · exact absurd rfl hcamne
      · exact hm
    | some url' =>
      simp only [calOKb, hc] at hcal
      have hnfx : (!fEx url') = false := by rw [hcal]; rfl
      by_cases hceq : c = cam
      · subst hceq
        rw [hurl] at hc
        have hu : url = url' := Option.some.inj hc
        subst hu
        simp only [cfcLoop, hp, hr, hurl, List.isEmpty_cons, Bool.false_eq_true,
          if_false, List.headD_cons, hany, hp2, hres2, hnfx, hyaml, hrad]
        exact ⟨⟨url, rfl⟩, hradinv⟩
      · have hmem' : cam ∈ rest := by
          rcases List.mem_cons.mp hmem with rfl | hm
          · exact absurd rfl hceq
          · exact hm
        cases hy : listEndsWith ((".yaml").toList) url' with
        | true =>
          simp only [cfcLoop, hp, hr, hc, List.isEmpty_cons, Bool.false_eq_true,
            if_false, List.headD_cons, hany, hp2, hres2, hnfx, hy,
            eq_self_iff_true, if_true]
          refine ih (i + 1) _ (fun x hx => hcams x (by simp [hx])) hmem' herr ?_
          intro e he
          rcases List.mem_append.mp he with hold | hnew
          · exact hradinv e hold
          · rcases List.mem_singleton.mp hnew with rfl
            exact fun h => hceq h
        | false =>
          cases hrd : listEndsWith ((".rad").toList) url' with
          | true =>
            simp only [cfcLoop, hp, hr, hc, List.isEmpty_cons,
              Bool.false_eq_true, if_false, List.headD_cons, hany, hp2, hres2,
              hnfx, hy, hrd, eq_self_iff_true, if_true]
            refine ih (i + 1) _ (fun x hx => hcams x (by simp [hx])) hmem' herr ?_
            intro e he
            rcases List.mem_append.mp he with hold | hnew
            · exact hradinv e hold
            · rcases List.mem_singleton.mp hnew with rfl
              exact fun h => hceq h
          | false =>
            simp only [cfcLoop, hp, hr, hc, List.isEmpty_cons,
              Bool.false_eq_true, if_false, List.headD_cons, hany, hp2, hres2,
              hnfx, hy, hrd]
            exact ⟨⟨url', rfl⟩, hradinv⟩

/-- C8: if any camera that survives the no-points filtering has a supplied
calibration source whose path ends in neither `.yaml` nor `.rad` (all other
per-camera data being well-formed), `create_from_cams` raises an
UnsupportedFormatError, and no radial-distortion file is recorded for that
camera. -/
theorem C8_unsupported_calibration_format :
    ∀ (outd bn : Str) (nth : Nat) (ids : List Str) (resD : Dict (List ℚ))
      (ptsD : Dict (List (List PyVal))) (calD : Dict Str) (fill : Int)
      (fEx : Str → Bool) (cam url : Str),
      ids ≠ [] → (∀ c ∈ ids, (pyLookup ptsD c).isSome) →
      (∀ c ∈ ids, c ≠ []) →
      (∀ c ∈ effIds ptsD ids, camOKb ptsD resD calD fEx c = true) →
      cam ∈ ids → (nvalidOf ptsD cam == 0) = false →
      pyLookup calD cam = some url →
      listEndsWith ((".yaml").toList) url = false →
      listEndsWith ((".rad").toList) url = false →
      (∃ u, (create_from_cams outd bn nth ids resD ptsD calD fill fEx).error =
          some (.unsupportedFormat u)) ∧
      ∀ e ∈ (create_from_cams outd bn nth ids resD ptsD calD fill fEx).radFiles,
        e.1 ≠ cam := by
  intro outd bn nth ids resD ptsD calD fill fEx cam url h1 h2 h3 hok hcam hnv
    hurl hy hr
  rw [create_from_cams_eq outd bn nth ids resD ptsD calD fill fEx h1 h2
    (fun c hc => h3 c (List.mem_of_mem_filter hc))]
  have hmem : cam ∈ effIds ptsD ids := by
    rw [effIds, List.mem_filter]
    exact ⟨hcam, by simp [hnv]⟩
  have hloop := cfcLoop_unsupported outd bn ptsD resD calD fEx cam url hurl hy hr
    (effIds ptsD ids) 0 CfcState.init hok hmem rfl
    (by intro e he; simp [CfcState.init] at he)
  obtain ⟨⟨u, hu⟩, hrf⟩ := hloop
  exact ⟨⟨u, hu⟩, hrf⟩

/-- Witness for C8: a surviving camera whose calibration source is
`cal.txt` makes the run fail with an UnsupportedFormatError and records no
radial file for it. -/
theorem C8_unsupported_calibration_format_witness :
    (∃ u, (create_from_cams (("out").toList) (("cam").toList) 1
          [("camA").toList] [(("camA").toList, [640, 480])]
          [(("camA").toList, [[.num 1, .num 2]])]
          [(("camA").toList, ("cal.txt").toList)] (-1)
          (fun _ => true)).error = some (.unsupportedFormat u)) ∧
    ∀ e ∈ (create_from_cams (("out").toList) (("cam").toList) 1
          [("camA").toList] [(("camA").toList, [640, 480])]
          [(("camA").toList, [[.num 1, .num 2]])]
          [(("camA").toList, ("cal.txt").toList)] (-1)
          (fun _ => true)).radFiles, e.1 ≠ ("camA").toList :=
  C8_unsupported_calibration_format (("out").toList) (("cam").toList) 1
    [("camA").toList] [(("camA").toList, [640, 480])]
    [(("camA").toList, [[.num 1, .num 2]])]
    [(("camA").toList, ("cal.txt").toList)] (-1) (fun _ => true)
    (("camA").toList) (("cal.txt").toList) (by decide) (by decide) (by decide)
    (by decide) (by decide) (by decide) (by decide) (by decide) (by decide)

/-- C6 counterexample: with the default basename `cam`, `create_from_cams`
materializes camera 1's radial file as `cam1.rad` (inside the output
directory), while `get_camera_names_map` reports `basename1.rad` for that
camera — not the same name. -/
theorem C6_basename_counterexample :
    (create_from_cams (("out").toList) (("cam").toList) 1 [("camA").toList]
        [(("camA").toList, [640, 480])]
        [(("camA").toList, [[.num 1, .num 2]])]
        [(("camA").toList, ("prior.rad").toList)] (-1) (fun _ => true)).radFiles =
      [(("camA").toList, ("out/cam1.rad").toList, .copy (("prior.rad").toList))] ∧
    dictGet (buildNamesMap [("camA").toList]) (("camA").toList) =
      some (("basename1.rad").toList) ∧
    ¬ containsSeq (("basename1.rad").toList) (("out/cam1.rad").toList) = true := by
  refine ⟨by decide, by decide, by decide⟩
